import Mathlib

/-!
# readeckobo — verification of the sync & content translation engine

Shallow embedding of the core logic of `internal/app/app.go` and
`internal/readeck/models.go` (the Kobo/Instapaper-to-Readeck bridge):

* the `/api/kobo/get` sync reconciliation (`HandleKoboGet`),
* the offset/count windowing applied to the filtered bookmark sequence,
* the article image rewriter of `HandleKoboDownload`,
* `compareURLs`, `UpdateBookmark`, `HandleKoboSend`, `HandleConvertImage`.

Network calls are modelled by passing the backend's answers as explicit
values (the change-event list returned by `GetBookmarksSync`, the bookmark
list decoded from the multipart batch response of `SyncBookmarksContent`,
the HTTP outcome seen by `UpdateBookmark`, ...).  Go maps are modelled as
association lists with insert-or-replace (`mapInsert`), which preserves
the key/value observations of a Go `map`.  `time.Time` values are
modelled as Unix seconds (`Int`), exactly what the handler extracts from
them via `.Unix()`.
-/

namespace Readeckobo

/-- A change-feed event (`readeck.BookmarkSync`): `type` is `"update"` or
`"delete"`, `time` is the event timestamp in Unix seconds. -/
structure BookmarkSync where
  id : String
  time : Int
  type : String
deriving DecidableEq, Repr

/-- `readeck.ResourceImage`. -/
structure ResourceImage where
  src : String
  width : Int
  height : Int
deriving DecidableEq, Repr

/-- `readeck.Resources`, restricted to the only field `HandleKoboGet`
reads (`Resources.Image`, a nullable pointer). -/
structure Resources where
  image : Option ResourceImage
deriving DecidableEq, Repr

/-- `readeck.Bookmark`, restricted to the fields `HandleKoboGet` reads.
`created`/`updated` are Unix seconds; `wordCount` models the `*int`
(JSON-nullable) field. -/
structure Bookmark where
  authors : List String
  created : Int
  description : String
  id : String
  isArchived : Bool
  isDeleted : Bool
  isMarked : Bool
  labels : List String
  resources : Resources
  title : String
  updated : Int
  url : String
  wordCount : Option Int
deriving DecidableEq, Repr

/-- One value of the `tags` map built by `HandleKoboGet`
(`{item_id, tag}`). -/
structure KoboTag where
  itemID : String
  tag : String
deriving DecidableEq, Repr

/-- One value of the `images` map built by `HandleKoboGet`
(`{image_id, item_id, src}`). -/
structure KoboImage where
  imageID : String
  itemID : String
  src : String
deriving DecidableEq, Repr

/-- The full bookmark entry built by `HandleKoboGet` (app.go lines
214–253).  `authors` keeps the author names (the Go code builds a map
keyed by the name whose values repeat the name), `images` keeps the
single-slot image map, `topImageURL` models `_optional.top_image_url`. -/
structure KoboEntry where
  authors : List String
  excerpt : String
  favorite : String
  givenTitle : String
  givenURL : String
  hasImage : String
  hasVideo : String
  imageSrc : String
  images : List KoboImage
  isArticle : String
  itemID : String
  resolvedID : String
  resolvedTitle : String
  resolvedURL : String
  status : String
  tags : List KoboTag
  timeAdded : Int
  timeRead : Int
  timeUpdated : Int
  wordCount : Option Int
  topImageURL : Option String
deriving DecidableEq, Repr

/-- A value stored in the response `list` map: either the bare
`{"item_id": id, "status": "2"}` object written for a `delete` event, or
a full bookmark entry. -/
inductive ListEntry where
  | deleted (itemID : String)
  | full (e : KoboEntry)
deriving DecidableEq, Repr

/-- The entry `HandleKoboGet` builds for one non-archived bookmark
(app.go lines 214–253).  Note `favorite` is the constant `"0"` and the
tag values carry the sync event's id (`bsync.ID`), while `item_id` is
the detail's own id (`bookmark.ID`). -/
def mkEntry (s : BookmarkSync) (b : Bookmark) : KoboEntry :=
  let base : KoboEntry :=
    { authors := b.authors
      excerpt := b.description
      favorite := "0"
      givenTitle := b.title
      givenURL := b.url
      hasImage := "0"
      hasVideo := "0"
      imageSrc := ""
      images := []
      isArticle := "1"
      itemID := b.id
      resolvedID := b.id
      resolvedTitle := b.title
      resolvedURL := b.url
      status := "0"
      tags := b.labels.map (fun label => { itemID := s.id, tag := label })
      timeAdded := b.created
      timeRead := 0
      timeUpdated := b.updated
      wordCount := b.wordCount
      topImageURL := none }
  match b.resources.image with
  | some img =>
      if img.src ≠ "" then
        { base with
            hasImage := "1"
            imageSrc := img.src
            images := [{ imageID := "1", itemID := "1", src := img.src }]
            topImageURL := some img.src }
      else base
  | none => base

/-- The id-keyed detail map built by `SyncBookmarksContent` from the
decoded multipart parts (`bookmarkMap[bookmarks[i].ID] = &bookmarks[i]`;
a later part with the same id overwrites an earlier one). -/
def detailsMap (bl : List Bookmark) (id : String) : Option Bookmark :=
  bl.foldl (fun acc b => if b.id = id then some b else acc) none

/-- The second loop of `HandleKoboGet` (app.go lines 187–255): walk the
sync events in feed order, skip `delete` events, skip candidates absent
from the batch result, count every non-archived hit into
`totalNonArchivedBookmarks` and append its entry to `actualBookmarks`.
Returns `(actualBookmarks, totalNonArchivedBookmarks)`. -/
def processEvents (bl : List Bookmark) : List BookmarkSync → List KoboEntry × Nat
  | [] => ([], 0)
  | s :: rest =>
      let r := processEvents bl rest
      if s.type = "delete" then r
      else
        match detailsMap bl s.id with
        | none => r
        | some b => if b.isArchived then r else (mkEntry s b :: r.1, r.2 + 1)

/-- The offset/count window of `HandleKoboGet` (app.go lines 257–269):
`startIndex := offset`, `endIndex := offset + count` (or `len` when
`count = 0`), both clamped to `len`, then the slice
`actualBookmarks[startIndex:endIndex]`.  `offset` and `count` come from
`strconv.Atoi` on the request strings, which yields `0` on a missing or
malformed field. -/
def applyWindow (l : List KoboEntry) (offset count : Nat) : List KoboEntry :=
  let startIndex := min offset l.length
  let endIndex := if count = 0 then l.length else min (offset + count) l.length
  (l.take endIndex).drop startIndex

/-- Insert-or-replace into an association list: the model of a Go map
assignment `m[k] = v`. -/
def mapInsert (l : List (String × ListEntry)) (k : String) (v : ListEntry) :
    List (String × ListEntry) :=
  if l.any (fun p => p.1 = k) then
    l.map (fun p => if p.1 = k then (k, v) else p)
  else l ++ [(k, v)]

/-- The first loop of `HandleKoboGet` (app.go lines 153–162): every
`delete` event writes `{"item_id": id, "status": "2"}` into
`resultList`. -/
def deleteBaseAux (acc : List (String × ListEntry)) :
    List BookmarkSync → List (String × ListEntry)
  | [] => acc
  | s :: rest =>
      deleteBaseAux
        (if s.type = "delete" then mapInsert acc s.id (.deleted s.id) else acc) rest

def deleteBase (events : List BookmarkSync) : List (String × ListEntry) :=
  deleteBaseAux [] events

/-- The final loop of `HandleKoboGet` (app.go lines 272–274): write every
windowed entry into `resultList` keyed by its `item_id`. -/
def insertEntries (acc : List (String × ListEntry)) :
    List KoboEntry → List (String × ListEntry)
  | [] => acc
  | e :: rest => insertEntries (mapInsert acc e.itemID (.full e)) rest

/-- `models.KoboGetResponse`, with the `list` map as an association
list. -/
structure KoboGetResponse where
  status : Nat
  list : List (String × ListEntry)
  total : Nat
deriving DecidableEq, Repr

/-- The pure core of `HandleKoboGet` (app.go lines 124–280) given the
backend's answers: `since` (absent ⇒ full sync) is only forwarded to
`GetBookmarksSync` as a query parameter, so the projection below does
not depend on it; `events` is what `GetBookmarksSync(since)` returned
and `bl` the bookmark list decoded from the `SyncBookmarksContent`
multipart response for the candidate ids. -/
def handleKoboGet (since : Option Int) (count offset : Nat)
    (events : List BookmarkSync) (bl : List Bookmark) : KoboGetResponse :=
  let _ := since
  let r := processEvents bl events
  let windowed := applyWindow r.1 offset count
  { status := 1
    list := insertEntries (deleteBase events) windowed
    total := r.2 }

/-! ## Article image rewriter (`HandleKoboDownload`, app.go lines 416–446)

The parsed article is a `golang.org/x/net/html` node tree; we model the
node kinds the rewriter distinguishes.  The traversal `processNode`
mutates the tree through `InsertBefore`/`RemoveChild`; crucially,
`RemoveChild(n)` nils out `n.NextSibling`, which is exactly the field the
parent's `for c := n.FirstChild; c != nil; c = c.NextSibling` loop reads
next, so after an `<img>` is replaced the loop over its siblings stops.
The functional model below reproduces that behaviour faithfully. -/

/-- A DOM node: element (with attributes and children), comment, or
text. -/
inductive Node where
  | elem (tag : String) (attrs : List (String × String)) (children : List Node)
  | comment (data : String)
  | text (data : String)

/-- An entry of the `images` map (`{image_id, item_id, src}`, all three
derived from the running counter and the `src` attribute). -/
structure ImageRef where
  ordinal : Nat
  sourceURL : String
deriving DecidableEq, Repr

/-- First `src` attribute of an element (`for _, attr := range n.Attr`,
breaking at the first `attr.Key == "src"`). -/
def findSrc (attrs : List (String × String)) : Option String :=
  (attrs.find? (fun a => a.1 = "src")).map (fun a => a.2)

mutual

/-- `processNode` on a node that is *not* replaced in its parent: only
recurses into its children. -/
def processNode (idx : Nat) : Node → Node × Nat × List ImageRef
  | .elem tag attrs children =>
      let r := processChildren idx children
      (.elem tag attrs r.1, r.2.1, r.2.2)
  | n => (n, idx, [])
termination_by n => sizeOf n

/-- The `for c := n.FirstChild; c != nil; c = c.NextSibling` loop of
`processNode`, acting on a child list.  When the current child is an
`img` element with a `src` attribute it is recorded (at the current
counter), replaced in the list by the comment marker `IMG_<idx>`, and the
counter incremented; the Go code then still walks the children of the
now-detached `img` node (their tree updates are lost, but the counter
and the image map are shared), and — because `RemoveChild` niled the
node's `NextSibling` — the sibling loop terminates, leaving `rest`
untraversed. -/
def processChildren (idx : Nat) : List Node → List Node × Nat × List ImageRef
  | [] => ([], idx, [])
  | .elem "img" attrs children :: rest =>
      (match findSrc attrs with
       | some src =>
           let r := processChildren (idx + 1) children
           (Node.comment (s!"IMG_{idx}") :: rest, r.2.1,
             ⟨idx, src⟩ :: r.2.2)
       | none =>
           let r₁ := processNode idx (.elem "img" attrs children)
           let r₂ := processChildren r₁.2.1 rest
           (r₁.1 :: r₂.1, r₂.2.1, r₁.2.2 ++ r₂.2.2))
  | c :: rest =>
      let r₁ := processNode idx c
      let r₂ := processChildren r₁.2.1 rest
      (r₁.1 :: r₂.1, r₂.2.1, r₁.2.2 ++ r₂.2.2)
termination_by l => sizeOf l

end

/-- The whole rewrite step of `HandleKoboDownload`: `processNode(doc)`
with the counter at 0, returning the rewritten tree and the recorded
image references (the `images` map, keyed by the decimal ordinal).  The
root `doc` is the document node produced by `html.Parse`, which is never
itself an `img` element and has no parent. -/
def rewriteHTML (doc : Node) : Node × List ImageRef :=
  let r := processNode 0 doc
  (r.1, r.2.2)

/-! ## `compareURLs` (app.go lines 676–692)

`compareURLs` trims both strings, parses them with `net/url.Parse`,
strips a leading `"www."` from each host, and compares scheme, host and
path, ignoring query and fragment.  `parseURL` below models `url.Parse`
on absolute URLs of the shape `scheme://host[/path][?query][#fragment]`:
the fragment is split off at the first `#`, the query at the first `?`,
the scheme at the first `:`, which must be followed by `//`, and the
host extends to the first `/`. -/

/-- The components of a parsed URL that `compareURLs` inspects. -/
structure ParsedURL where
  scheme : String
  host : String
  path : String
  query : Option String
  fragment : Option String
deriving DecidableEq, Repr

/-- Split a character list at the first occurrence of `c`: returns the
part before it and, when found, the part after it. -/
def breakAt (c : Char) : List Char → List Char × Option (List Char)
  | [] => ([], none)
  | x :: xs =>
      if x = c then ([], some xs)
      else
        let r := breakAt c xs
        (x :: r.1, r.2)

/-- Unicode-whitespace trim of `strings.TrimSpace`. -/
def trimChars (cs : List Char) : List Char :=
  ((cs.dropWhile Char.isWhitespace).reverse.dropWhile Char.isWhitespace).reverse

/-- Model of `net/url.Parse` restricted to absolute URLs
(`scheme://...`); returns `none` where the model does not apply. -/
def parseURL (s : String) : Option ParsedURL :=
  let cs := s.toList
  let f := breakAt '#' cs
  let q := breakAt '?' f.1
  let sc := breakAt ':' q.1
  match sc.2 with
  | some ('/' :: '/' :: authority) =>
      let h := breakAt '/' authority
      let path : List Char :=
        match h.2 with
        | some p => '/' :: p
        | none => []
      some { scheme := sc.1.asString
             host := h.1.asString
             path := path.asString
             query := q.2.map List.asString
             fragment := f.2.map List.asString }
  | _ => none

/-- `strings.TrimPrefix(host, "www.")`: drop one leading `"www."` if
present. -/
def dropWww (s : String) : String :=
  match s.toList with
  | 'w' :: 'w' :: 'w' :: '.' :: rest => rest.asString
  | _ => s

/-- `compareURLs(url1, url2)` (app.go lines 676–692); `none` models the
`(false, err)` return on a parse error. -/
def compareURLs (url1 url2 : String) : Option Bool :=
  match parseURL (trimChars url1.toList).asString,
        parseURL (trimChars url2.toList).asString with
  | some u1, some u2 =>
      some ((u1.scheme = u2.scheme && dropWww u1.host = dropWww u2.host)
              && u1.path = u2.path)
  | _, _ => none

/-! ## `UpdateBookmark` (readeck client, models.go lines 405–417)

`doRequest` fails with a transport error (wrapped, not an `*APIError`)
when `HTTPClient.Do` fails, and with `&APIError{StatusCode: code}` when
the response status is outside `[200, 300)`.  `UpdateBookmark` then
treats an `*APIError` with status 404 as success. -/

/-- What the backend did with one HTTP request. -/
inductive BackendResult where
  | transportError
  | status (code : Nat)
deriving DecidableEq, Repr

/-- The error `doRequest` surfaces: a wrapped transport error or an
`*APIError` carrying the status code. -/
inductive ClientError where
  | transport
  | api (code : Nat)
deriving DecidableEq, Repr

/-- `doRequest` error classification (client, models.go lines 145–153):
ok exactly when `200 <= code < 300`. -/
def doRequestOutcome : BackendResult → Except ClientError Unit
  | .transportError => .error .transport
  | .status code =>
      if 200 ≤ code ∧ code < 300 then .ok () else .error (.api code)

/-- The `apiErr, ok := err.(*APIError); ok && apiErr.StatusCode == 404`
test of `UpdateBookmark`. -/
def isNotFoundErr : ClientError → Bool
  | .transport => false
  | .api code => code = 404

/-- `UpdateBookmark(ctx, id, updates)` given the backend's behaviour for
the PATCH request; a 404 from the backend is treated as success. -/
def updateBookmark (id : String) (updates : List (String × Bool))
    (backend : BackendResult) : Except ClientError Unit :=
  let _ := id
  let _ := updates
  match doRequestOutcome backend with
  | .ok _ => .ok ()
  | .error e => if isNotFoundErr e then .ok () else .error e

/-! ## `HandleKoboSend` (app.go lines 497–598)

Each element of the request's `actions` array is an arbitrary JSON
value; the handler type-asserts it to an object, reads its `"action"`,
`"item_id"` and `"url"` string fields (empty string when missing or not
a string), dispatches a backend call, and records one boolean per
action.  The backend's responses are modelled by a function from the
issued call to its success. -/

/-- One element of the `actions` array: `notMap` models a JSON value
that is not an object (the failed `actionInterface.(map[string]any)`
assertion); otherwise the three string fields the handler reads, `none`
when absent or not a string. -/
inductive ActionObj where
  | notMap
  | obj (action : Option String) (itemID : Option String) (url : Option String)
deriving DecidableEq, Repr

/-- A backend call issued by the action dispatch. -/
inductive BackendCall where
  | update (id : String) (fields : List (String × Bool))
  | create (url : String)
deriving DecidableEq, Repr

/-- The `switch action` dispatch for one action (app.go lines 543–586):
returns the recorded boolean (`err == nil`). -/
def runAction (backend : BackendCall → Bool) : ActionObj → Bool
  | .notMap => false
  | .obj action itemID url =>
      match action.getD "" with
      | "archive" => backend (.update (itemID.getD "") [("is_archived", true)])
      | "readd" => backend (.update (itemID.getD "") [("is_archived", false)])
      | "favorite" => backend (.update (itemID.getD "") [("is_marked", true)])
      | "unfavorite" => backend (.update (itemID.getD "") [("is_marked", false)])
      | "delete" => backend (.update (itemID.getD "") [("is_deleted", true)])
      | "add" => backend (.create (url.getD ""))
      | "opened_item" => true
      | "left_item" => true
      | _ => false

/-- The action strings the `switch` recognises (everything else falls to
the `default` branch producing an "unknown action" error). -/
def knownActionStrings : List String :=
  ["archive", "readd", "favorite", "unfavorite", "delete", "add",
   "opened_item", "left_item"]

/-- The `/api/kobo/send` response body. -/
structure KoboSendResponse where
  status : Bool
  actionResults : List Bool
deriving DecidableEq, Repr

/-- The action loop of `HandleKoboSend`: one boolean per action in
order, `status` the conjunction of all of them. -/
def handleKoboSend (backend : BackendCall → Bool) (actions : List ActionObj) :
    KoboSendResponse :=
  let results := actions.map (runAction backend)
  { status := results.all (fun b => b), actionResults := results }

/-! ## `HandleConvertImage` (app.go lines 601–673)

The handler reads the `url` query parameter via `r.URL.Query().Get`,
which returns `""` both for an absent parameter and for an empty value —
the model's `urlParam` is that extracted string.  Fetch and decode are
one oracle: either the HTTP GET failed, or it returned a status code and
(when the body decoded) an image. -/

/-- The decoded source image (only its bounds matter to the model). -/
structure ImageData where
  width : Nat
  height : Nat
deriving DecidableEq, Repr

/-- Outcome of `client.Get(imageURL)` followed by `image.Decode`. -/
inductive ImageFetchOutcome where
  | fetchError
  | fetched (statusCode : Nat) (decoded : Option ImageData)
deriving DecidableEq, Repr

/-- The JPEG body written with `Content-Type: image/jpeg`: either the
source image re-encoded at quality 85, or the fixed 800×600 placeholder
canvas carrying a diagnostic caption. -/
inductive JpegPayload where
  | reencoded (img : ImageData)
  | placeholder (width height : Nat) (caption : String)
deriving DecidableEq, Repr

/-- The observable response of `/api/convert-image`. -/
inductive ConvertResponse where
  | methodNotAllowed
  | badRequest
  | jpeg (payload : JpegPayload)
deriving DecidableEq, Repr

/-- `returnPlaceholderImage` (app.go lines 653–673): an 800×600 canvas
with the caption, JPEG-encoded, status 200. -/
def placeholderResponse (caption : String) : ConvertResponse :=
  .jpeg (.placeholder 800 600 caption)

/-- `HandleConvertImage` (app.go lines 601–651).  `urlParam` is the
string returned by `r.URL.Query().Get("url")`. -/
def handleConvertImage (method : String) (urlParam : String)
    (outcome : ImageFetchOutcome) : ConvertResponse :=
  if method ≠ "GET" then .methodNotAllowed
  else if urlParam = "" then .badRequest
  else
    match outcome with
    | .fetchError => placeholderResponse "Image fetch failed"
    | .fetched code decoded =>
        if code ≠ 200 then placeholderResponse "Image not found"
        else
          match decoded with
          | none => placeholderResponse "Image decoding failed"
          | some img => .jpeg (.reencoded img)

/-- HTTP status of a modelled `/api/convert-image` response. -/
def statusCodeOf : ConvertResponse → Nat
  | .methodNotAllowed => 405
  | .badRequest => 400
  | .jpeg _ => 200

/-- `Content-Type` header of a modelled `/api/convert-image` response
(`none` on the plain-text error paths). -/
def contentTypeOf : ConvertResponse → Option String
  | .jpeg _ => some "image/jpeg"
  | _ => none

/-! ## Helper lemmas about the sync reconciliation -/

/-- The running total counts exactly the entries appended to
`actualBookmarks`. -/
theorem processEvents_snd_eq_length (bl : List Bookmark)
    (events : List BookmarkSync) :
    (processEvents bl events).2 = (processEvents bl events).1.length := by
  induction events with
  | nil => rfl
  | cons s rest ih =>
      simp only [processEvents]
      split
      · exact ih
      · split
        · exact ih
        · split
          · exact ih
          · simpa using ih

/-- `mkEntry` keys the entry by the detail's own id. -/
theorem mkEntry_itemID (s : BookmarkSync) (b : Bookmark) :
    (mkEntry s b).itemID = b.id := by
  unfold mkEntry
  split
  · split <;> rfl
  · rfl

/-- `mkEntry` always projects `favorite` to the constant `"0"`. -/
theorem mkEntry_favorite (s : BookmarkSync) (b : Bookmark) :
    (mkEntry s b).favorite = "0" := by
  unfold mkEntry
  split
  · split <;> rfl
  · rfl

/-- Every entry of `actualBookmarks` comes from a non-`delete` event
whose batch-fetched detail exists and is not archived. -/
theorem mem_processEvents_fst {bl : List Bookmark} {events : List BookmarkSync}
    {e : KoboEntry} (h : e ∈ (processEvents bl events).1) :
    ∃ s b, s ∈ events ∧ s.type ≠ "delete" ∧ detailsMap bl s.id = some b ∧
      b.isArchived = false ∧ e = mkEntry s b := by
  induction events with
  | nil => simp [processEvents] at h
  | cons s rest ih =>
      simp only [processEvents] at h
      by_cases hdel : s.type = "delete"
      · rw [if_pos hdel] at h
        obtain ⟨s', b, hs', hd, hm, ha, he⟩ := ih h
        exact ⟨s', b, List.mem_cons_of_mem _ hs', hd, hm, ha, he⟩
      · rw [if_neg hdel] at h
        cases hd : detailsMap bl s.id with
        | none =>
            simp only [hd] at h
            obtain ⟨s', b, hs', hd', hm, ha, he⟩ := ih h
            exact ⟨s', b, List.mem_cons_of_mem _ hs', hd', hm, ha, he⟩
        | some b =>
            cases hb : b.isArchived with
            | true =>
                simp [hd, hb] at h
                obtain ⟨s', b', hs', hd', hm, ha, he⟩ := ih h
                exact ⟨s', b', List.mem_cons_of_mem _ hs', hd', hm, ha, he⟩
            | false =>
                simp [hd, hb] at h
                rcases h with he | hmem
                · exact ⟨s, b, List.mem_cons_self s rest, hdel, hd, hb, he⟩
                · obtain ⟨s', b', hs', hd', hm, ha, he⟩ := ih hmem
                  exact ⟨s', b', List.mem_cons_of_mem _ hs', hd', hm, ha, he⟩

/-- Ignoring `delete` events does not change the running total. -/
theorem processEvents_snd_filter (bl : List Bookmark)
    (events : List BookmarkSync) :
    (processEvents bl (events.filter (fun s => s.type != "delete"))).2
      = (processEvents bl events).2 := by
  induction events with
  | nil => rfl
  | cons s rest ih =>
      by_cases hdel : s.type = "delete"
      · simp [processEvents, List.filter_cons, hdel, ih]
      · simp only [List.filter_cons, bne_iff_ne, ne_eq, hdel, not_false_eq_true,
          if_true, processEvents, decide_not]
        simp only [processEvents, hdel, if_false] at ih ⊢
        split
        · simpa [hdel] using ih
        · next b =>
            split
            · simpa [hdel] using ih
            · simpa [hdel] using ih

/-- Invariant of the fold building the batch map: any bookmark stored
under key `id` has that id. -/
theorem detailsMap_id_aux (id : String) (b : Bookmark) :
    ∀ (bl : List Bookmark) (init : Option Bookmark),
      (∀ b', init = some b' → b'.id = id) →
      bl.foldl (fun acc b' => if b'.id = id then some b' else acc) init = some b →
      b.id = id
  | [], _, hinit, hfold => hinit b hfold
  | x :: rest, init, hinit, hfold => by
      rw [List.foldl_cons] at hfold
      refine detailsMap_id_aux id b rest _ ?_ hfold
      intro b' hb'
      by_cases hx : x.id = id
      · simp only [if_pos hx, Option.some.injEq] at hb'
        rw [← hb']; exact hx
      · simp only [if_neg hx] at hb'
        exact hinit b' hb'

/-- A bookmark found in the batch map carries the id it was looked up
under. -/
theorem detailsMap_id {bl : List Bookmark} {id : String} {b : Bookmark}
    (h : detailsMap bl id = some b) : b.id = id :=
  detailsMap_id_aux id b bl none (by simp) h

/-- The elements of the window are elements of the filtered sequence. -/
theorem mem_applyWindow {l : List KoboEntry} {offset count : Nat}
    {e : KoboEntry} (h : e ∈ applyWindow l offset count) : e ∈ l := by
  unfold applyWindow at h
  exact List.mem_of_mem_take (List.mem_of_mem_drop h)

/-- A pair in `mapInsert l k v` is the inserted pair or one of `l`. -/
theorem mem_mapInsert {l : List (String × ListEntry)} {k : String}
    {v : ListEntry} {p : String × ListEntry} (h : p ∈ mapInsert l k v) :
    p = (k, v) ∨ p ∈ l := by
  unfold mapInsert at h
  split at h
  · obtain ⟨q, hq, hpq⟩ := List.mem_map.mp h
    by_cases hk : q.1 = k
    · simp [hk] at hpq
      exact Or.inl hpq.symm
    · simp [hk] at hpq
      exact Or.inr (hpq ▸ hq)
  · rcases List.mem_append.mp h with hmem | hmem
    · exact Or.inr hmem
    · simp at hmem
      exact Or.inl hmem

/-- A pair in the fully inserted list is a delete entry of the base or a
windowed full entry. -/
theorem mem_insertEntries {acc : List (String × ListEntry)}
    {l : List KoboEntry} {p : String × ListEntry} (h : p ∈ insertEntries acc l) :
    p ∈ acc ∨ ∃ e ∈ l, p = (e.itemID, ListEntry.full e) := by
  induction l generalizing acc with
  | nil => exact Or.inl h
  | cons e rest ih =>
      rcases ih h with hmem | ⟨e', he', hp⟩
      · rcases mem_mapInsert hmem with hp | hmem'
        · exact Or.inr ⟨e, List.mem_cons_self e rest, hp⟩
        · exact Or.inl hmem'
      · exact Or.inr ⟨e', List.mem_cons_of_mem _ he', hp⟩

/-- A pair in the delete base comes from the accumulator or from a
`delete` event. -/
theorem mem_deleteBaseAux {acc : List (String × ListEntry)}
    {events : List BookmarkSync} {p : String × ListEntry}
    (h : p ∈ deleteBaseAux acc events) :
    p ∈ acc ∨ ∃ s ∈ events, s.type = "delete" ∧ p = (s.id, ListEntry.deleted s.id) := by
  induction events generalizing acc with
  | nil => exact Or.inl h
  | cons s rest ih =>
      simp only [deleteBaseAux] at h
      rcases ih h with hmem | ⟨s', hs', htype, hp⟩
      · split at hmem
        · rcases mem_mapInsert hmem with hp | hmem'
          · next htype => exact Or.inr ⟨s, List.mem_cons_self s rest, htype, hp⟩
          · exact Or.inl hmem'
        · exact Or.inl hmem
      · exact Or.inr ⟨s', List.mem_cons_of_mem _ hs', htype, hp⟩

/-- Inserting under a different key leaves the entries stored under
`key` unchanged. -/
theorem filter_map_replace (l : List (String × ListEntry)) {k key : String}
    (v : ListEntry) (hne : k ≠ key) :
    (l.map (fun p => if p.1 = k then (k, v) else p)).filter (fun p => p.1 == key)
      = l.filter (fun p => p.1 == key) := by
  induction l with
  | nil => rfl
  | cons q rest ih =>
      by_cases hq : q.1 = k
      · simp [List.filter_cons, hq, hne, Ne.symm hne, ih]
      · simp only [List.map_cons, if_neg hq]
        by_cases hqk : q.1 = key
        · simp [List.filter_cons, hqk, ih]
        · simp [List.filter_cons, hqk, ih]

theorem mapInsert_filter_ne {l : List (String × ListEntry)} {k key : String}
    (v : ListEntry) (hne : k ≠ key) :
    (mapInsert l k v).filter (fun p => p.1 == key)
      = l.filter (fun p => p.1 == key) := by
  unfold mapInsert
  split
  · exact filter_map_replace l v hne
  · simp [List.filter_append, hne]

/-- Inserting full entries whose keys all differ from `key` leaves the
entries stored under `key` unchanged. -/
theorem insertEntries_filter_ne {l : List KoboEntry} {key : String}
    (hne : ∀ e ∈ l, e.itemID ≠ key) (acc : List (String × ListEntry)) :
    (insertEntries acc l).filter (fun p => p.1 == key)
      = acc.filter (fun p => p.1 == key) := by
  induction l generalizing acc with
  | nil => rfl
  | cons e rest ih =>
      rw [insertEntries,
        ih (fun e' he' => hne e' (List.mem_cons_of_mem _ he')),
        mapInsert_filter_ne _ (hne e (List.mem_cons_self e rest))]

/-- Processing events none of which carries `key` as id leaves the
entries stored under `key` unchanged. -/
theorem deleteBaseAux_filter_ne {events : List BookmarkSync} {key : String}
    (hne : ∀ s ∈ events, s.id ≠ key) (acc : List (String × ListEntry)) :
    (deleteBaseAux acc events).filter (fun p => p.1 == key)
      = acc.filter (fun p => p.1 == key) := by
  induction events generalizing acc with
  | nil => rfl
  | cons s rest ih =>
      rw [deleteBaseAux]
      rw [ih (fun s' hs' => hne s' (List.mem_cons_of_mem _ hs'))]
      split
      · exact mapInsert_filter_ne _ (hne s (List.mem_cons_self s rest))
      · rfl

/-- When no entry of `acc` is stored under `k`, `mapInsert` appends. -/
theorem mapInsert_of_not_mem {acc : List (String × ListEntry)} {k : String}
    (v : ListEntry) (h : ∀ p ∈ acc, p.1 ≠ k) :
    mapInsert acc k v = acc ++ [(k, v)] := by
  unfold mapInsert
  rw [if_neg]
  simp only [List.any_eq_true, not_exists, not_and]
  intro p hp
  simpa using h p hp

/-- Under pairwise-distinct event ids, the first loop of `HandleKoboGet`
stores exactly one `{"status": "2"}` entry for a `delete` event. -/
theorem deleteBaseAux_filter_found {events : List BookmarkSync}
    {s : BookmarkSync} (hnd : (events.map BookmarkSync.id).Nodup)
    (hs : s ∈ events) (hdel : s.type = "delete")
    (acc : List (String × ListEntry)) (hacc : ∀ p ∈ acc, p.1 ≠ s.id) :
    (deleteBaseAux acc events).filter (fun p => p.1 == s.id)
      = [(s.id, ListEntry.deleted s.id)] := by
  induction events generalizing acc with
  | nil => exact absurd hs (List.not_mem_nil s)
  | cons e rest ih =>
      rw [List.map_cons, List.nodup_cons] at hnd
      rcases List.mem_cons.mp hs with hse | hsrest
      · subst hse
        rw [deleteBaseAux, if_pos hdel, mapInsert_of_not_mem _ hacc]
        have hrest : ∀ s' ∈ rest, s'.id ≠ s.id := by
          intro s' hs' heq
          exact hnd.1 (heq ▸ List.mem_map_of_mem BookmarkSync.id hs')
        rw [deleteBaseAux_filter_ne hrest]
        rw [List.filter_append]
        have : acc.filter (fun p => p.1 == s.id) = [] := by
          rw [List.filter_eq_nil_iff]
          intro p hp
          simpa using hacc p hp
        simp [this]
      · have hid : e.id ≠ s.id := by
          intro heq
          exact hnd.1 (heq ▸ List.mem_map_of_mem BookmarkSync.id hsrest)
        rw [deleteBaseAux]
        split
        · refine ih hnd.2 hsrest _ ?_
          intro p hp
          rcases mem_mapInsert hp with hpe | hpacc
          · rw [hpe]; exact hid
          · exact hacc p hpacc
        · exact ih hnd.2 hsrest _ hacc

/-! ## Concrete fixtures used by the claim evaluations -/

/-- A non-archived, favorited bookmark (the repo's own
"full sync with favorited item" test fixture). -/
def favBookmark : Bookmark :=
  { authors := [], created := 100, description := "d", id := "1",
    isArchived := false, isDeleted := false, isMarked := true,
    labels := [], resources := { image := none }, title := "Favorited",
    updated := 200, url := "http://e/a", wordCount := none }

/-- An `update` event for bookmark `"1"`. -/
def updateEvent1 : BookmarkSync := { id := "1", time := 0, type := "update" }

/-- A newly archived bookmark (the repo's own
"incremental sync with newly archived" test fixture). -/
def archivedBookmark : Bookmark :=
  { favBookmark with
    isArchived := true
    isMarked := false
    title := "Newly Archived" }

/-- A second non-archived bookmark. -/
def plainBookmark2 : Bookmark :=
  { favBookmark with
    id := "2"
    isMarked := false
    title := "Unread" }

/-- An `update` event for bookmark `"2"`. -/
def updateEvent2 : BookmarkSync := { id := "2", time := 0, type := "update" }

/-- A `delete` event for bookmark `"1"`. -/
def deleteEvent1 : BookmarkSync := { id := "1", time := 0, type := "delete" }

/-- Is a list entry a full bookmark entry? -/
def isFullEntry : ListEntry → Bool
  | .full _ => true
  | .deleted _ => false

/-- Is a list entry a bare `{"status": "2"}` delete entry? -/
def isDeletedEntry : ListEntry → Bool
  | .full _ => false
  | .deleted _ => true

/-! ## Claims -/

/-- **C1** (code bug).  The spec says `isMarked → favorite="1"`, and the
repo's own test `TestHandleKoboGet/full sync with favorited item`
expects `favorite = "1"` for a marked bookmark, but `HandleKoboGet`
writes the constant `"0"` (app.go line 220).  Evaluated at the claim's
own scenario — a full sync with one `update` event whose detail has
`isArchived=false, isMarked=true` — the handler returns the `Full` item
with `favorite = "0"`. -/
theorem handleKoboGet_marked_item_favorite_is_zero :
    favBookmark.isMarked = true ∧ favBookmark.isArchived = false ∧
    (handleKoboGet none 10 0 [updateEvent1] [favBookmark]).list
      = [("1", ListEntry.full (mkEntry updateEvent1 favBookmark))] ∧
    (mkEntry updateEvent1 favBookmark).favorite = "0" :=
  ⟨rfl, rfl, rfl, rfl⟩

/-- **C2** (code bug).  The spec says an incremental `update` event whose
detail is now archived yields a `StatusOnly(archived)` entry, and the
repo's own test `TestHandleKoboGet/incremental sync with newly archived`
expects one list entry with `status = "1"`, but `HandleKoboGet` skips
every archived detail outright (app.go lines 209–211) regardless of the
`since` cursor: the incremental sync below returns an empty list. -/
theorem handleKoboGet_incremental_archived_dropped :
    archivedBookmark.isArchived = true ∧
    (handleKoboGet (some 1672531200) 0 0 [updateEvent1] [archivedBookmark]).list
      = [] ∧
    (handleKoboGet (some 1672531200) 0 0 [updateEvent1] [archivedBookmark]).total
      = 0 :=
  ⟨rfl, rfl, rfl⟩

/-- **C3** (counterexample).  On a full sync with two non-archived
candidates and a window of `count = 1`, the response's `total` is 2
while only one `Full` item is returned in `list` — `total` counts the
filtered sequence before windowing, not the items actually returned. -/
theorem handleKoboGet_total_ne_returned :
    (handleKoboGet none 1 0 [updateEvent1, updateEvent2]
        [favBookmark, plainBookmark2]).total = 2 ∧
    ((handleKoboGet none 1 0 [updateEvent1, updateEvent2]
        [favBookmark, plainBookmark2]).list.countP
      (fun p => isFullEntry p.2)) = 1 ∧
    (2 : Nat) ≠ 1 := by
  refine ⟨rfl, ?_, by decide⟩
  rfl

/-- **C3** (amended).  For every sync, `total` equals the length of the
filtered, non-archived candidate sequence (`actualBookmarks`) — i.e. the
number of `Full` items *before* offset/count windowing — and every
`Full` entry appearing in `list` is built from a non-`delete` event
whose batch-fetched detail exists and has `isArchived = false`: no
archived bookmark ever appears in `list`. -/
theorem handleKoboGet_total_and_no_archived :
    ∀ (since : Option Int) (count offset : Nat) (events : List BookmarkSync)
      (bl : List Bookmark),
      (handleKoboGet since count offset events bl).total
        = (processEvents bl events).1.length ∧
      ∀ p ∈ (handleKoboGet since count offset events bl).list,
        ∀ e, p.2 = ListEntry.full e →
          ∃ s b, s ∈ events ∧ s.type ≠ "delete" ∧
            detailsMap bl s.id = some b ∧ b.isArchived = false ∧
            e = mkEntry s b := by
  intro since count offset events bl
  constructor
  · exact processEvents_snd_eq_length bl events
  · intro p hp e hpe
    rcases mem_insertEntries hp with hdel | ⟨e', he', hp'⟩
    · rcases mem_deleteBaseAux hdel with habs | ⟨s, _, _, hps⟩
      · simp at habs
      · rw [hps] at hpe
        simp at hpe
    · have he : e' = e := by
        rw [hp'] at hpe
        simpa using hpe
      subst he
      exact mem_processEvents_fst (mem_applyWindow he')

/-- Witness for the amended C3 at a concrete input. -/
theorem handleKoboGet_total_and_no_archived_witness :
    ∃ s b, s ∈ [updateEvent1] ∧ s.type ≠ "delete" ∧
      detailsMap [favBookmark] s.id = some b ∧ b.isArchived = false ∧
      mkEntry updateEvent1 favBookmark = mkEntry s b :=
  (handleKoboGet_total_and_no_archived none 10 0 [updateEvent1]
      [favBookmark]).2
    ("1", ListEntry.full (mkEntry updateEvent1 favBookmark))
    (by decide)
    (mkEntry updateEvent1 favBookmark) rfl

/-- **C4** (confirmed).  The offset/count window of `HandleKoboGet`
equals "drop the first `offset` filtered items, then take `count` of
the remainder (everything when `count = 0`)": it never returns more
than `count` items when `count > 0`, returns the whole remaining
sequence when `count = 0`, skips exactly the first `offset` eligible
items, and — being a contiguous drop/take slice — preserves the
original feed order. -/
theorem applyWindow_eq_drop_take :
    ∀ (l : List KoboEntry) (offset count : Nat),
      applyWindow l offset count
        = (l.drop offset).take (if count = 0 then l.length else count) := by
  intro l offset count
  simp only [applyWindow]
  by_cases hc : count = 0
  · rw [if_pos hc, if_pos hc, List.take_length,
      List.take_of_length_le (by simp : (l.drop offset).length ≤ l.length)]
    by_cases ho : offset ≤ l.length
    · rw [min_eq_left ho]
    · push_neg at ho
      rw [min_eq_right ho.le, List.drop_eq_nil_of_le le_rfl,
        List.drop_eq_nil_of_le ho.le]
  · rw [if_neg hc, if_neg hc, List.drop_take]
    by_cases ho : offset ≤ l.length
    · rw [min_eq_left ho]
      by_cases hoc : offset + count ≤ l.length
      · rw [min_eq_left hoc]
        congr 1
        omega
      · push_neg at hoc
        rw [min_eq_right hoc.le]
        rw [List.take_eq_take]
        simp only [List.length_drop]
        omega
    · push_neg at ho
      have h1 : l.drop offset = [] := List.drop_eq_nil_of_le ho.le
      rw [h1, min_eq_right ho.le,
        min_eq_right (by omega : l.length ≤ offset + count)]
      simp

/-- An `<img src="http://e/a.png">` element. -/
def imgElemA : Node := .elem "img" [("src", "http://e/a.png")] []

/-- An `<img src="http://e/b.png">` element. -/
def imgElemB : Node := .elem "img" [("src", "http://e/b.png")] []

/-- An article whose body contains two sibling images. -/
def twoImgDoc : Node := .elem "html" [] [.elem "body" [] [imgElemA, imgElemB]]

/-- `twoImgDoc` after one rewrite pass: only the first image was
replaced, the second is still a raw `<img>`. -/
def twoImgDocOnce : Node :=
  .elem "html" [] [.elem "body" [] [.comment "IMG_0", imgElemB]]

/-- `twoImgDoc` after a second rewrite pass: the leftover image gets
replaced too, reusing ordinal 0. -/
def twoImgDocTwice : Node :=
  .elem "html" [] [.elem "body" [] [.comment "IMG_0", .comment "IMG_0"]]

/-- **C5** (code bug).  `RemoveChild` nils the replaced `<img>` node's
`NextSibling`, which is the very field the parent's traversal loop reads
next, so every sibling after a replaced image is skipped: an article
with two sibling images yields only the marker `IMG_0` and a one-entry
image map (the claim demands `IMG_0` and `IMG_1` with a two-entry map),
and re-running the rewrite on the output replaces the leftover image —
so the pass is not idempotent either. -/
theorem rewriteHTML_skips_siblings :
    rewriteHTML twoImgDoc = (twoImgDocOnce, [⟨0, "http://e/a.png"⟩]) ∧
    rewriteHTML twoImgDocOnce = (twoImgDocTwice, [⟨0, "http://e/b.png"⟩]) := by
  constructor
  · simp [rewriteHTML, twoImgDoc, twoImgDocOnce, imgElemA, imgElemB,
      processNode, processChildren, findSrc]
    rfl
  · simp [rewriteHTML, twoImgDocOnce, twoImgDocTwice, imgElemA, imgElemB,
      processNode, processChildren, findSrc]
    rfl

/-- **C6** (confirmed).  `compareURLs` returns true exactly when the two
URLs, after trimming whitespace and stripping a leading `"www."` from
each host, agree on scheme, host and path — the parsed query and
fragment do not occur in the right-hand side — and the two concrete
examples of the claim evaluate as stated. -/
theorem compareURLs_spec :
    (∀ (u1 u2 : String) (p1 p2 : ParsedURL),
        parseURL (trimChars u1.toList).asString = some p1 →
        parseURL (trimChars u2.toList).asString = some p2 →
        (compareURLs u1 u2 = some true ↔
          (p1.scheme = p2.scheme ∧ dropWww p1.host = dropWww p2.host ∧
            p1.path = p2.path))) ∧
    compareURLs "https://www.x.com/a?x=1" "https://x.com/a#y" = some true ∧
    compareURLs "https://x.com/a" "https://x.com/b" = some false := by
  refine ⟨?_, by decide, by decide⟩
  intro u1 u2 p1 p2 h1 h2
  unfold compareURLs
  rw [h1, h2]
  simp [and_assoc]

/-- Witness for C6 at the claim's first example. -/
theorem compareURLs_spec_witness :
    compareURLs "https://www.x.com/a?x=1" "https://x.com/a#y" = some true ↔
      ("https" = "https" ∧ dropWww "www.x.com" = dropWww "x.com" ∧
        "/a" = "/a") :=
  compareURLs_spec.1 "https://www.x.com/a?x=1" "https://x.com/a#y"
    { scheme := "https", host := "www.x.com", path := "/a",
      query := some "x=1", fragment := none }
    { scheme := "https", host := "x.com", path := "/a",
      query := none, fragment := some "y" }
    rfl rfl

/-- **C7** (confirmed).  For every bookmark id and update map,
`UpdateBookmark` succeeds when the backend answers 404 (idempotent
delete semantics) and on any 2xx, and returns an error for every other
non-2xx status and for a transport failure. -/
theorem updateBookmark_notfound_is_success :
    ∀ (id : String) (updates : List (String × Bool)) (c : Nat),
      updateBookmark id updates (.status 404) = .ok () ∧
      (200 ≤ c ∧ c < 300 → updateBookmark id updates (.status c) = .ok ()) ∧
      (¬(200 ≤ c ∧ c < 300) → c ≠ 404 →
        updateBookmark id updates (.status c) = .error (.api c)) ∧
      updateBookmark id updates .transportError = .error .transport := by
  intro id updates c
  refine ⟨rfl, ?_, ?_, rfl⟩
  · intro h
    simp [updateBookmark, doRequestOutcome, if_pos h]
  · intro h hne
    simp [updateBookmark, doRequestOutcome, if_neg h, isNotFoundErr, hne]

/-- Witness for C7: a 500 answer surfaces as an API error. -/
theorem updateBookmark_notfound_is_success_witness :
    updateBookmark "b1" [("is_archived", true)] (.status 500)
      = .error (.api 500) :=
  (updateBookmark_notfound_is_success "b1" [("is_archived", true)] 500).2.2.1
    (by decide) (by decide)

/-- **C8** (confirmed).  `HandleKoboSend` returns one boolean per input
action in order (the results list is the pointwise image of the actions
list), `status` is the conjunction of all results, an unknown action
string always yields `false` for its own slot only, and the claim's
scenario `[{archive,"1"},{unknown,"x"}]` (with a backend accepting the
archive update) yields `action_results = [true, false]` and
`status = false`. -/
theorem handleKoboSend_per_action_results :
    ∀ (backend : BackendCall → Bool) (actions : List ActionObj),
      (handleKoboSend backend actions).actionResults.length = actions.length ∧
      (handleKoboSend backend actions).actionResults
        = actions.map (runAction backend) ∧
      (handleKoboSend backend actions).status
        = (handleKoboSend backend actions).actionResults.all (fun b => b) ∧
      (∀ act itemID url, act ∉ knownActionStrings →
          runAction backend (.obj (some act) itemID url) = false) ∧
      handleKoboSend (fun _ => true)
          [.obj (some "archive") (some "1") none,
            .obj (some "unknown") (some "x") none]
        = { status := false, actionResults := [true, false] } := by
  intro backend actions
  refine ⟨by simp [handleKoboSend], rfl, rfl, ?_, rfl⟩
  intro act itemID url h
  simp only [knownActionStrings, List.mem_cons, List.not_mem_nil, or_false,
    not_or] at h
  unfold runAction
  simp only [Option.getD]
  split <;> simp_all

/-- Witness for C8: the unknown action of the scenario fails its slot. -/
theorem handleKoboSend_per_action_results_witness :
    runAction (fun _ => true) (.obj (some "unknown") (some "x") none)
      = false :=
  (handleKoboSend_per_action_results (fun _ => true) []).2.2.2.1
    "unknown" (some "x") none (by decide)

/-- **C9** (confirmed).  With the `url` query parameter non-empty, the
convert-image endpoint always answers 200 with `Content-Type:
image/jpeg` — the re-encoded source image when the fetch returned 200
and the body decoded, and the 800×600 placeholder with a diagnostic
caption on fetch or decode failure — and it answers 400 exactly when
the extracted `url` parameter is empty (`r.URL.Query().Get` returns
`""` for an absent parameter), independent of any fetch outcome. -/
theorem handleConvertImage_always_jpeg :
    ∀ (url : String) (outcome : ImageFetchOutcome),
      (url ≠ "" →
        statusCodeOf (handleConvertImage "GET" url outcome) = 200 ∧
        contentTypeOf (handleConvertImage "GET" url outcome)
          = some "image/jpeg" ∧
        ((∃ img, outcome = .fetched 200 (some img) ∧
            handleConvertImage "GET" url outcome = .jpeg (.reencoded img)) ∨
          (∃ caption, handleConvertImage "GET" url outcome
              = .jpeg (.placeholder 800 600 caption)))) ∧
      (handleConvertImage "GET" url outcome = .badRequest ↔ url = "") := by
  intro url outcome
  by_cases hu : url = ""
  · refine ⟨fun h => absurd hu h, ?_⟩
    simp [handleConvertImage, hu]
  · constructor
    · intro _
      cases outcome with
      | fetchError =>
          refine ⟨?_, ?_, Or.inr ⟨"Image fetch failed", ?_⟩⟩ <;>
            simp [handleConvertImage, hu, placeholderResponse, statusCodeOf,
              contentTypeOf]
      | fetched code decoded =>
          by_cases hc : code = 200
          · cases decoded with
            | none =>
                refine ⟨?_, ?_, Or.inr ⟨"Image decoding failed", ?_⟩⟩ <;>
                  simp [handleConvertImage, hu, hc, placeholderResponse,
                    statusCodeOf, contentTypeOf]
            | some img =>
                refine ⟨?_, ?_, Or.inl ⟨img, by rw [hc], ?_⟩⟩ <;>
                  simp [handleConvertImage, hu, hc, statusCodeOf,
                    contentTypeOf]
          · refine ⟨?_, ?_, Or.inr ⟨"Image not found", ?_⟩⟩ <;>
              simp [handleConvertImage, hu, hc, placeholderResponse,
                statusCodeOf, contentTypeOf]
    · constructor
      · intro h
        exfalso
        cases outcome with
        | fetchError => simp [handleConvertImage, hu, placeholderResponse] at h
        | fetched code decoded =>
            by_cases hc : code = 200
            · cases decoded with
              | none =>
                  simp [handleConvertImage, hu, hc, placeholderResponse] at h
              | some img => simp [handleConvertImage, hu, hc] at h
            · simp [handleConvertImage, hu, hc, placeholderResponse] at h
      · intro h
        exact absurd h hu

/-- Witness for C9: a failed fetch still yields a 200 JPEG response. -/
theorem handleConvertImage_always_jpeg_witness :
    statusCodeOf (handleConvertImage "GET" "http://e/i.png" .fetchError)
        = 200 ∧
      contentTypeOf (handleConvertImage "GET" "http://e/i.png" .fetchError)
        = some "image/jpeg" ∧
      ((∃ img, ImageFetchOutcome.fetchError
            = ImageFetchOutcome.fetched 200 (some img) ∧
          handleConvertImage "GET" "http://e/i.png" .fetchError
            = .jpeg (.reencoded img)) ∨
        (∃ caption, handleConvertImage "GET" "http://e/i.png" .fetchError
            = .jpeg (.placeholder 800 600 caption))) :=
  (handleConvertImage_always_jpeg "http://e/i.png" .fetchError).1 (by decide)

/-- **C10** (counterexample).  A `delete` event and an `update` event
sharing one id: the full entry written by the windowing loop overwrites
the delete entry in the id-keyed `resultList` map, so the sync response
contains no `{"status": "2"}` entry at all for the feed's one `delete`
event. -/
theorem handleKoboGet_delete_entry_overwritten :
    ([deleteEvent1, updateEvent1].countP (fun s => s.type == "delete")) = 1 ∧
    ((handleKoboGet (some 5) 0 0 [deleteEvent1, updateEvent1]
        [plainBookmark2, favBookmark]).list.countP
      (fun p => isDeletedEntry p.2)) = 0 ∧
    (handleKoboGet (some 5) 0 0 [deleteEvent1, updateEvent1]
        [plainBookmark2, favBookmark]).list
      = [("1", ListEntry.full (mkEntry updateEvent1 favBookmark))] := by
  refine ⟨by decide, ?_, rfl⟩
  rfl

/-- **C10** (amended).  Provided the feed's event ids are pairwise
distinct, every `delete` event contributes exactly one
`{"item_id": id, "status": "2"}` entry to the response list — stored by
the first loop before any windowing, and unaffected by `offset`/`count`
since the theorem holds for all of them — and delete events are never
counted in `total` (dropping them from the feed leaves `total`
unchanged). -/
theorem handleKoboGet_delete_entries :
    ∀ (since : Option Int) (count offset : Nat) (events : List BookmarkSync)
      (bl : List Bookmark),
      ((events.map BookmarkSync.id).Nodup →
        ∀ s ∈ events, s.type = "delete" →
          (handleKoboGet since count offset events bl).list.filter
              (fun p => p.1 == s.id)
            = [(s.id, ListEntry.deleted s.id)]) ∧
      (handleKoboGet since count offset events bl).total
        = (handleKoboGet since count offset
            (events.filter (fun s => s.type != "delete")) bl).total := by
  intro since count offset events bl
  constructor
  · intro hnd s hs hdel
    show (insertEntries (deleteBase events)
        (applyWindow (processEvents bl events).1 offset count)).filter
        (fun p => p.1 == s.id) = _
    have hwin : ∀ e ∈ applyWindow (processEvents bl events).1 offset count,
        e.itemID ≠ s.id := by
      intro e he heq
      obtain ⟨s', b, hs', hd', hm, _, he'⟩ :=
        mem_processEvents_fst (mem_applyWindow he)
      have hbid : b.id = s'.id := detailsMap_id hm
      have : e.itemID = s'.id := by rw [he', mkEntry_itemID, hbid]
      have hss : s' = s :=
        List.inj_on_of_nodup_map hnd hs' hs (by rw [← this, heq])
      rw [hss] at hd'
      exact hd' hdel
    rw [insertEntries_filter_ne hwin]
    exact deleteBaseAux_filter_found hnd hs hdel [] (by simp)
  · show (processEvents bl events).2 = (processEvents bl _).2
    exact (processEvents_snd_filter bl events).symm

/-- Witness for the amended C10 at a concrete input. -/
theorem handleKoboGet_delete_entries_witness :
    (handleKoboGet (some 5) 3 1 [deleteEvent1, updateEvent2]
        [plainBookmark2]).list.filter (fun p => p.1 == deleteEvent1.id)
      = [(deleteEvent1.id, ListEntry.deleted deleteEvent1.id)] :=
  (handleKoboGet_delete_entries (some 5) 3 1 [deleteEvent1, updateEvent2]
      [plainBookmark2]).1 (by decide) deleteEvent1 (by decide) rfl

end Readeckobo
